import Mathlib

/-!
Shallow embedding of the gnostique event-enrichment pipeline and
thread-ordering engine (src/nostr.rs, src/lane.rs, src/stream.rs),
together with proofs about the properties of the embedded code.

Machine integers (`u64` timestamps, `u32` hour counts) are modelled as
`Nat`: no arithmetic in the modelled code can overflow or wrap, the
values are only compared. `Sha256Hash` event ids and `XOnlyPublicKey`
values are opaque identifiers in the code and are modelled as `Nat`.
-/

namespace Gnostique

/-! ### Domain model (nostr-sdk value types used by src/nostr.rs) -/

/-- NIP-10 marker on an event-reference tag (`nostr_sdk::nostr::Marker`). -/
inductive Marker
  | root
  | reply
  | mention
deriving DecidableEq

/-- Event tags (`nostr_sdk::nostr::Tag`), restricted to the shapes the
embedded code inspects: event-reference tags with an optional marker,
generic tags, and a catch-all for every other tag shape. -/
inductive Tag
  | event (id : Nat) (relay : Option String) (marker : Option Marker)
  | generic (kind : String) (args : List String)
  | otherTag
deriving DecidableEq

/-- Event kinds (`nostr_sdk::nostr::Kind`), restricted to the kinds the
pipeline dispatches on plus a catch-all carrying the raw kind number. -/
inductive Kind
  | textNote
  | metadata
  | reaction
  | other (k : Nat)
deriving DecidableEq

/-- An incoming signed event (`nostr_sdk::nostr::Event`): immutable after
receipt. Only the fields read by the embedded code are modelled. -/
structure Event where
  id : Nat
  pubkey : Nat
  kind : Kind
  created_at : Nat
  tags : List Tag
  content : String
deriving DecidableEq

/-! ### src/nostr.rs — `EventExt::replies_to` (NIP-10 reply target) -/

/-- The branch `Tag::Event(id, _, Some(Marker::Reply)) => Some(*id)` of the
`find_map` closure in `replies_to`. -/
def replyMarkId : Tag → Option Nat
  | .event id _ (some .reply) => some id
  | _ => none

/-- The filter predicate `matches!(t, Tag::Event(_, _, None))` in
`replies_to`'s positional branch. -/
def isPlainEventTag : Tag → Bool
  | .event _ _ none => true
  | _ => false

/-- Extract the id of an event-reference tag. -/
def tagEventId : Tag → Option Nat
  | .event id _ _ => some id
  | _ => none

/-- The positional (unmarked-tag) branch of `replies_to`: mirrors the Rust
`match only_events.as_slice()` with its singleton, length-at-least-two and
catch-all arms. -/
def positionalRepliesTo (tags : List Tag) : Option Nat :=
  match tags.filter isPlainEventTag with
  | [] => none
  | [t] => tagEventId t
  | t0 :: t1 :: rest => ((t0 :: t1 :: rest).getLast?).bind tagEventId

/-- `EventExt::replies_to` from src/nostr.rs: first a marked event tag with
`Marker::Reply`, otherwise the positional convention. -/
def Event.replies_to (e : Event) : Option Nat :=
  (e.tags.findSome? replyMarkId).orElse fun _ => positionalRepliesTo e.tags

/-! ### src/lane.rs — the thread-ordering engine (`Lane`) -/

/-- A note held by a lane (relm4 `Note` factory component, constructed from
`NoteInit { event, is_central }`). -/
structure Note where
  event : Event
  is_central : Bool
deriving DecidableEq

/-- Modelled from the spec: the `Note` component (src/ui/note.rs, outside
the provided sources) stores a display `time`; per the spec's data model
notes are ordered by creation timestamp, so `time` is the event's
`created_at` (the code compares `tn.time.timestamp() as u64`). -/
def Note.time (n : Note) : Nat := n.event.created_at

/-- The state of one conversation view (`Lane`): the designated central
note id, the ordered note sequence (`FactoryVecDeque<Note>`), and the
reply index (`HashMap<Sha256Hash, DynamicIndex>`). A `DynamicIndex` always
reports the note's current position, so the index is modelled as an
association list from event id to current position, whose stored positions
are shifted whenever an insertion happens before them. -/
structure Lane where
  central_note : Option Nat
  text_notes : List Note
  hash_index : List (Nat × Nat)
deriving DecidableEq

/-- Look an event id up in the reply index (`HashMap::get` composed with
`DynamicIndex::current_index`). -/
def lookupIdx (ix : List (Nat × Nat)) (h : Nat) : Option Nat :=
  (ix.find? fun p => p.1 == h).map (·.2)

/-- One reply notification sent by `text_note_received`:
`self.text_notes.send(idx.current_index(), NoteInput::Reply(event))`. -/
structure ReplyDelivery where
  target : Nat
  reply : Event
deriving DecidableEq

/-- `FactoryVecDeque::insert` at position `i`. -/
def insertAt (l : List Note) (i : Nat) (n : Note) : List Note :=
  l.take i ++ n :: l.drop i

/-- The `DynamicIndex` positions stored in the reply index shift up by one
when a note is inserted at position `i` at or before them. -/
def bumpIdx (ix : List (Nat × Nat)) (i : Nat) : List (Nat × Nat) :=
  ix.map fun p => if i ≤ p.2 then (p.1, p.2 + 1) else p

/-- `Lane::text_note_received` from src/lane.rs. Returns the updated lane
together with the reply notifications sent to existing notes. Reply
routing happens first and unconditionally; insertion happens only when the
event id is not yet in the reply index; the central note is pushed to the
front, every other note is inserted before the first note with a strictly
later creation time, or appended at the end. -/
def Lane.text_note_received (l : Lane) (event : Event) : Lane × List ReplyDelivery :=
  let deliveries : List ReplyDelivery :=
    match (event.replies_to).bind fun h => lookupIdx l.hash_index h with
    | some i => [⟨i, event⟩]
    | none => []
  if (lookupIdx l.hash_index event.id).isSome then
    (l, deliveries)
  else
    let is_central : Bool := decide (l.central_note = some event.id)
    let note : Note := ⟨event, is_central⟩
    if is_central then
      ({ l with
          text_notes := note :: l.text_notes,
          hash_index := (event.id, 0) :: bumpIdx l.hash_index 0 },
        deliveries)
    else
      match l.text_notes.findIdx? fun tn => decide (event.created_at < tn.time) with
      | some i =>
        ({ l with
            text_notes := insertAt l.text_notes i note,
            hash_index := (event.id, i) :: bumpIdx l.hash_index i },
          deliveries)
      | none =>
        ({ l with
            text_notes := l.text_notes ++ [note],
            hash_index := (event.id, l.text_notes.length) :: l.hash_index },
          deliveries)

/-- A lane as produced by `Lane::init_model`: designated central note id,
empty sequence, empty index. -/
def Lane.start (central : Option Nat) : Lane := ⟨central, [], []⟩

/-- Submit a list of `NewTextNote` messages in order, keeping the lane
state (reply deliveries are side effects towards note components). -/
def Lane.submitAll (l : Lane) (es : List Event) : Lane :=
  es.foldl (fun acc e => (acc.text_note_received e).1) l

/-! ### src/stream.rs — the notification pipeline -/

/-- Profile metadata parsed from a metadata event's content
(`nostr_sdk::nostr::Metadata`), restricted to the fields read by
`received_metadata`. -/
structure Metadata where
  name : Option String
  about : Option String
  picture : Option String
  banner : Option String
  nip05 : Option String
deriving DecidableEq

/-- The profile projection built by `received_metadata`
(`crate::nostr::Persona`). URLs and cached file paths are modelled as
strings. -/
structure Persona where
  pubkey : Nat
  name : Option String
  avatar : Option String
  banner : Option String
  about : Option String
  nip05 : Option String
  nip05_verified : Bool
  metadata_json : String
deriving DecidableEq

/-- The pipeline's enriched output record (`enum X` in src/stream.rs). -/
inductive X
  | textNote (event : Event) (relays : List String) (author : Option Persona)
      (avatar : Option String)
  | reaction (event_id : Nat) (content : String)
  | metadata (persona : Persona) (avatar : Option String)
deriving DecidableEq

/-- A feedback request (`enum Feedback` in src/stream.rs). -/
inductive Feedback
  | needMetadata (relay : String) (pubkey : Nat)
deriving DecidableEq

/-- The capacity passed to `mpsc::channel(10)` when `x` builds the
feedback channel in src/stream.rs. -/
def feedbackChannelCapacity : Nat := 10

/-- The bound passed to `buffer_unordered(64)` in `x`. -/
def enrichmentConcurrency : Nat := 64

/-- The state of the bounded feedback channel (`tokio::sync::mpsc` with
capacity `feedbackChannelCapacity`): the queued messages and whether the
receiving half has been dropped. -/
structure Channel where
  capacity : Nat
  queue : List Feedback
  closed : Bool
deriving DecidableEq

/-- What happened to one `Sender::send(...).await` call. -/
inductive SendOutcome
  | sent -- capacity was available, the message was enqueued immediately
  | waited -- the queue was full: the producer suspended until capacity freed, then the message was enqueued
  | closedErr -- the channel was closed: the send returned `SendError`
deriving DecidableEq

/-- Model of `tokio::sync::mpsc::Sender::send(m).await` on a bounded
channel: it fails only when the channel is closed; when the queue is full
it does not fail and does not drop the message — the producer suspends
until capacity is available and the message is then enqueued (outcome
`waited`, with the message appended once a slot frees). -/
def mpsc_send (ch : Channel) (m : Feedback) : SendOutcome × Channel :=
  if ch.closed then (.closedErr, ch)
  else if ch.queue.length < ch.capacity then (.sent, { ch with queue := ch.queue ++ [m] })
  else (.waited, { ch with queue := ch.queue ++ [m] })

/-- External collaborators of the pipeline, gathered in one record: the
persistence gateway reads, the resource cache, parsing of profile
metadata and URLs (serde / `reqwest::Url::parse`), event serialization,
and the NIP-05 verification step as invoked from `received_metadata`. -/
structure Ext where
  getPersona : Nat → Option Persona -- Gnostique::get_persona
  downloadCached : String → Option String -- self.download().cached(url)
  downloadCachedFile : String → Option String -- self.download().cached_file(url) composed with Download::file
  textnoteRelays : Nat → List String -- Gnostique::textnote_relays
  parseMetadata : String → Option Metadata -- Event::as_metadata(), i.e. serde parse of the content
  parseUrl : String → Option String -- reqwest::Url::parse(...).ok()
  eventJson : Event → String -- Event::as_json().unwrap(): serialization of a well-formed event always succeeds
  verifyNip05 : Nat → String → Bool -- result of verify_nip05(gnostique, pubkey, nip05)

/-- Output of `received_text_note`: the enriched record plus what happened
on the feedback channel (`none` when no send was attempted). -/
structure TextNoteOut where
  record : X
  sendOutcome : Option SendOutcome
deriving DecidableEq

/-- `received_text_note` from src/stream.rs: persist the event, look the
author up; a known author with an avatar URL resolves it through the
cache; a known author without one resolves nothing; an unknown author
triggers a best-effort `NeedMetadata` feedback send whose result is
discarded by `unwrap_or_default()`; finally the known relays are attached
and a `TextNote` record is emitted. -/
def received_text_note (ext : Ext) (ch : Channel) (relay : String) (event : Event) :
    TextNoteOut × Channel :=
  match ext.getPersona event.pubkey with
  | some p =>
    match p.avatar with
    | some url =>
      (⟨X.textNote event (ext.textnoteRelays event.id) (some p) (ext.downloadCached url),
        none⟩, ch)
    | none =>
      (⟨X.textNote event (ext.textnoteRelays event.id) (some p) none, none⟩, ch)
  | none =>
    let s := mpsc_send ch (.needMetadata relay event.pubkey)
    (⟨X.textNote event (ext.textnoteRelays event.id) none none, some s.1⟩, s.2)

/-- `received_metadata` from src/stream.rs, with the panic of
`event.as_metadata().unwrap()` made explicit as `Except.error`: the raw
event is upserted (side effect on the store, swallowed by `let _`), the
content is parsed as profile metadata — a parse failure panics —, avatar
and banner URL strings that do not parse are treated as absent, a valid
avatar URL is resolved through the cache, a declared NIP-05 identity is
verified, and a `Metadata` record is emitted. -/
def received_metadata (ext : Ext) (event : Event) : Except Unit X :=
  let json := ext.eventJson event
  match ext.parseMetadata event.content with
  | none => .error ()
  | some metadata =>
    let avatar_url := metadata.picture.bind ext.parseUrl
    let banner_url := metadata.banner.bind ext.parseUrl
    let avatar := avatar_url.bind ext.downloadCachedFile
    let verified : Bool :=
      match metadata.nip05 with
      | some n => ext.verifyNip05 event.pubkey n
      | none => false
    .ok (X.metadata
      ⟨event.pubkey, metadata.name, avatar_url, banner_url, metadata.about,
        metadata.nip05, verified, json⟩
      avatar)

/-- Modelled from the spec: `EventExt::reacts_to` (its definition is not
among the provided sources, only its caller is) resolves a reaction's
target event id from the event's tags; the spec fixes no algorithm beyond
"resolve the target event id from tags", so the pipeline model takes the
resolver as a parameter of this type. -/
abbrev ReactsTo : Type := Event → Option Nat

/-- `received_event` from src/stream.rs: dispatch on the event kind. Text
notes and metadata produce records (metadata enrichment may panic, made
explicit in the `Except`); a reaction produces a record only when its
target resolves; every other kind is dropped. -/
def received_event (ext : Ext) (reactsTo : ReactsTo) (ch : Channel)
    (relay : String) (event : Event) : Except Unit (Option X) × Channel :=
  match event.kind with
  | .textNote =>
    let o := received_text_note ext ch relay event
    (.ok (some o.1.record), o.2)
  | .metadata =>
    (match received_metadata ext event with
      | .ok x => .ok (some x)
      | .error u => .error u,
      ch)
  | .reaction => (.ok ((reactsTo event).map fun tgt => X.reaction tgt event.content), ch)
  | .other _ => (.ok none, ch)

/-- Outcome of one `verify_nip05` call in src/stream.rs: the returned
boolean, whether a live network verification was performed, and whether a
fresh `nip05_verified` timestamp was written. -/
structure Nip05Outcome where
  verified : Bool
  network : Bool
  wrote : Bool
deriving DecidableEq

/-- `verify_nip05` from src/stream.rs as a function of its two effects:
`dbHours` is the result of the `SELECT` of the stored verification age in
hours (`Except.error` models a failed query, the outer `Option` a missing
row, the inner `Option` a NULL `nip05_verified` column), and `live` is
whether `nip05::verify` succeeds. A stored age under 12 hours confirms
immediately; otherwise a live check runs, writing a fresh timestamp only
on success; a failed query returns false without error. -/
def verify_nip05 (dbHours : Except Unit (Option (Option Nat))) (live : Bool) : Nip05Outcome :=
  match dbHours with
  | .error _ => ⟨false, false, false⟩
  | .ok result =>
    match result.bind fun r => r with -- result.and_then(|r| r.hours)
    | some hours =>
      if hours < 12 then ⟨true, false, false⟩
      else if live then ⟨true, true, true⟩
      else ⟨false, true, false⟩
    | none =>
      if live then ⟨true, true, true⟩
      else ⟨false, true, false⟩

/-! ### Derived definitions used by the statements -/

/-- Recursive reformulation of the non-central insertion of
`text_note_received` (position scan plus `insert`/`push_back`): insert
before the first note with a strictly later creation time, else append.
Proven equal to the scan-based form in `insert_eq_insRec`. -/
def insRec (t : Nat) (n : Note) : List Note → List Note
  | [] => [n]
  | hd :: tl => if t < hd.time then n :: hd :: tl else hd :: insRec t n tl

/-- The creation times of a lane's notes other than the designated central
note, in sequence order. -/
def Lane.nonCentralTimes (l : Lane) : List Nat :=
  (l.text_notes.filter fun n => decide (¬ l.central_note = some n.event.id)).map Note.time

/-! ### Concrete instances used by counterexamples and witnesses -/

/-- Text note with id 1 and timestamp 100 (note A of the spec's scenario). -/
def evA : Event := ⟨1, 0, .textNote, 100, [], ""⟩

/-- Text note with id 2 and timestamp 50 (note B of the spec's scenario). -/
def evB : Event := ⟨2, 0, .textNote, 50, [], ""⟩

/-- Text note with id 3 and timestamp 75 (note C of the spec's scenario). -/
def evC : Event := ⟨3, 0, .textNote, 75, [], ""⟩

/-- Text note with id 2 and timestamp 10. -/
def ev10 : Event := ⟨2, 0, .textNote, 10, [], ""⟩

/-- Text note with id 1 and timestamp 9999, used as a central note. -/
def ev9999 : Event := ⟨1, 0, .textNote, 9999, [], ""⟩

/-- Text note with id 3 and timestamp 20. -/
def ev20 : Event := ⟨3, 0, .textNote, 20, [], ""⟩

/-- Text note with id 4 and timestamp 10, equal to `ev10`'s timestamp. -/
def ev10b : Event := ⟨4, 0, .textNote, 10, [], ""⟩

/-- Parent note: id 1, timestamp 10, no tags. -/
def evP : Event := ⟨1, 0, .textNote, 10, [], ""⟩

/-- Reply note: id 2, timestamp 20, one reply-marked tag referencing id 1. -/
def evR : Event := ⟨2, 0, .textNote, 20, [Tag.event 1 none (some .reply)], ""⟩

/-- Text note whose only tag is reply-marked and references id 7. -/
def evReply : Event := ⟨21, 0, .textNote, 0, [Tag.event 7 none (some .reply)], ""⟩

/-- Metadata event whose content is not valid profile metadata. -/
def evBadMeta : Event := ⟨9, 5, .metadata, 0, [], "not json"⟩

/-- Text note by an author unknown to the test gateway. -/
def evT : Event := ⟨11, 7, .textNote, 5, [], ""⟩

/-- Event of an unhandled kind. -/
def evOther : Event := ⟨12, 0, .other 5, 0, [], ""⟩

/-- Concrete external collaborators for evaluation: an empty persona
store, an empty resource cache, a metadata parser accepting only the
payload `"\x7b\x7d"` (empty JSON object), and a failing verifier. -/
def extTest : Ext where
  getPersona := fun _ => none
  downloadCached := fun _ => none
  downloadCachedFile := fun _ => none
  textnoteRelays := fun _ => []
  parseMetadata := fun s => if s = "\x7b\x7d" then some ⟨none, none, none, none, none⟩ else none
  parseUrl := fun _ => none
  eventJson := fun _ => "\x7b\x7d"
  verifyNip05 := fun _ _ => false

/-- An open feedback channel holding ten queued requests: full, since the
code creates the channel with capacity 10. -/
def chFull : Channel :=
  ⟨feedbackChannelCapacity, List.replicate 10 (.needMetadata "wss:r" 1), false⟩

/-- A closed feedback channel. -/
def chClosed : Channel := ⟨feedbackChannelCapacity, [], true⟩

/-- An open, empty feedback channel. -/
def chEmpty : Channel := ⟨feedbackChannelCapacity, [], false⟩

/-- The lane holding `evP` and `evR`, in which `evR` is already indexed. -/
def laneDup : Lane := (Lane.start none).submitAll [evP, evR]

/-! ### Lemmas about the insertion scan -/

/-- The scan-plus-insert of the non-central branch of `text_note_received`
computes `insRec`. -/
lemma insert_eq_insRec (t : Nat) (n : Note) : ∀ l : List Note,
    (match l.findIdx? fun tn => decide (t < tn.time) with
      | some i => insertAt l i n
      | none => l ++ [n]) = insRec t n l
  | [] => by simp [insRec, insertAt]
  | hd :: tl => by
    rw [List.findIdx?_cons]
    by_cases h : t < hd.time
    · simp [h, insRec, insertAt]
    · rw [List.findIdx?_succ]
      have ih := insert_eq_insRec t n tl
      cases hidx : tl.findIdx? fun tn => decide (t < tn.time) with
      | none =>
        rw [hidx] at ih
        simp [h, insRec, ← ih]
      | some i =>
        rw [hidx] at ih
        simp [h, insRec, insertAt, ← ih, List.take_succ_cons, List.drop_succ_cons]

/-- Everything in the inserted list is the new note or an old note. -/
lemma mem_insRec {x n : Note} {t : Nat} {l : List Note}
    (hx : x ∈ insRec t n l) : x = n ∨ x ∈ l := by
  induction l with
  | nil => simpa [insRec] using hx
  | cons hd tl ih =>
    by_cases h : t < hd.time
    · rw [insRec, if_pos h] at hx
      rcases List.mem_cons.mp hx with h1 | h1
      · exact .inl h1
      · exact .inr h1
    · rw [insRec, if_neg h] at hx
      rcases List.mem_cons.mp hx with h1 | h1
      · exact .inr (h1 ▸ List.mem_cons_self hd tl)
      · rcases ih h1 with h2 | h2
        · exact .inl h2
        · exact .inr (List.mem_cons_of_mem hd h2)

/-- Inserting a note with creation time `t` by the scan keeps the sequence
sorted by creation time. -/
lemma pairwise_insRec {t : Nat} {n : Note} (hn : n.time = t) {l : List Note}
    (hs : l.Pairwise fun a b => a.time ≤ b.time) :
    (insRec t n l).Pairwise fun a b => a.time ≤ b.time := by
  induction l with
  | nil => simp [insRec]
  | cons hd tl ih =>
    rcases List.pairwise_cons.mp hs with ⟨hhd, htl⟩
    by_cases h : t < hd.time
    · rw [insRec, if_pos h]
      refine List.pairwise_cons.mpr ⟨?_, hs⟩
      intro b hb
      rcases List.mem_cons.mp hb with hb | hb
      · subst hb; omega
      · have := hhd b hb; omega
    · rw [insRec, if_neg h]
      refine List.pairwise_cons.mpr ⟨?_, ih htl⟩
      intro b hb
      rcases mem_insRec hb with hb | hb
      · subst hb; omega
      · exact hhd b hb

/-- Decomposition of the insertion: the old sequence splits into the
notes scanned past (all with time at most `t`) and the rest, whose first
note — when there is one — has a strictly later time; the new note lands
between the two parts. -/
lemma insRec_decomp (t : Nat) (n : Note) (l : List Note) : ∃ pre post,
    l = pre ++ post ∧ insRec t n l = pre ++ n :: post ∧
      (∀ x ∈ pre, x.time ≤ t) ∧ ∀ h, post.head? = some h → t < h.time := by
  induction l with
  | nil =>
    exact ⟨[], [], by simp, by simp [insRec], by simp, by simp⟩
  | cons hd tl ih =>
    by_cases h : t < hd.time
    · refine ⟨[], hd :: tl, by simp, by rw [insRec, if_pos h]; simp, by simp, ?_⟩
      intro x hx
      simp only [List.head?_cons, Option.some.injEq] at hx
      subst hx; exact h
    · obtain ⟨pre, post, h1, h2, h3, h4⟩ := ih
      refine ⟨hd :: pre, post, by simp [h1], ?_, ?_, h4⟩
      · rw [insRec, if_neg h, h2]; simp
      · intro x hx
        rcases List.mem_cons.mp hx with hx | hx
        · subst hx; omega
        · exact h3 x hx

/-! ### Lemmas about `Lane.text_note_received` -/

/-- An already-indexed event leaves the lane state untouched. -/
lemma text_note_received_indexed {l : Lane} {e : Event}
    (h : (lookupIdx l.hash_index e.id).isSome = true) :
    (l.text_note_received e).1 = l := by
  simp [Lane.text_note_received, h]

/-- A not-yet-indexed, non-central event rewrites the sequence by the
scan-based insertion. -/
lemma text_note_received_insert {l : Lane} {e : Event}
    (hc : l.central_note ≠ some e.id)
    (hi : lookupIdx l.hash_index e.id = none) :
    (l.text_note_received e).1.text_notes = insRec e.created_at ⟨e, false⟩ l.text_notes := by
  have hb : decide (l.central_note = some e.id) = false := decide_eq_false hc
  rw [← insert_eq_insRec]
  simp only [Lane.text_note_received, hi, Option.isSome_none, Bool.false_eq_true, if_false, hb]
  cases hidx : l.text_notes.findIdx? fun tn => decide (e.created_at < tn.time) <;> simp [hidx]

/-- `text_note_received` never changes the designated central note id. -/
lemma text_note_received_central (l : Lane) (e : Event) :
    (l.text_note_received e).1.central_note = l.central_note := by
  unfold Lane.text_note_received
  dsimp only
  split
  · rfl
  · split
    · rfl
    · split <;> rfl

/-- One submission of an event that is not the designated central note
preserves sortedness of the sequence by creation time. -/
lemma submit_sorted {l : Lane} {e : Event} (hc : l.central_note ≠ some e.id)
    (hs : l.text_notes.Pairwise fun a b => a.time ≤ b.time) :
    (l.text_note_received e).1.text_notes.Pairwise fun a b => a.time ≤ b.time := by
  by_cases hi : (lookupIdx l.hash_index e.id).isSome
  · rw [text_note_received_indexed hi]; exact hs
  · rw [text_note_received_insert hc (Option.not_isSome_iff_eq_none.mp hi)]
    exact pairwise_insRec (show Note.time ⟨e, false⟩ = e.created_at from rfl) hs

/-- A run of submissions none of which is the designated central note
keeps the sequence sorted by creation time and the central id unchanged. -/
lemma submitAll_sorted {central : Option Nat} : ∀ {events : List Event} {l : Lane},
    l.central_note = central → (∀ e ∈ events, central ≠ some e.id) →
    l.text_notes.Pairwise (fun a b => a.time ≤ b.time) →
    (l.submitAll events).text_notes.Pairwise (fun a b => a.time ≤ b.time)
      ∧ (l.submitAll events).central_note = central
  | [], l, hl, _, hs => ⟨hs, hl⟩
  | e :: es, l, hl, h, hs => by
    have hc : l.central_note ≠ some e.id := by
      rw [hl]; exact h e (List.mem_cons_self e es)
    have step1 : (l.text_note_received e).1.central_note = central := by
      rw [text_note_received_central, hl]
    have step2 := submit_sorted hc hs
    have hrest : ∀ e' ∈ es, central ≠ some e'.id :=
      fun e' he' => h e' (List.mem_cons_of_mem e he')
    simpa [Lane.submitAll] using submitAll_sorted step1 hrest step2

/-! ### Claim C1 — central-pin invariant -/

/-- C1: the central-pin invariant does not hold of the code. With central
note id 1, submitting the central note (timestamp 100) and then a
non-central note (id 2, timestamp 50) leaves the sequence [2, 1]: the
insertion scan also walks over the central note, so the newcomer is
inserted at position 0 and the central note ends at position 1, against
the code's own comment that the central text note always goes first. -/
theorem c1_central_pin_fails_on_code :
    (((Lane.start (some 1)).submitAll [evA, evB]).text_notes.map fun n => n.event.id) = [2, 1]
      ∧ lookupIdx ((Lane.start (some 1)).submitAll [evA, evB]).hash_index 1 = some 1 := by
  constructor <;> rfl

/-! ### Claim C2 — ordering invariant outside the central note -/

/-- C2 counterexample: with central id 1, after submitting (id 2, ts 10),
the central (id 1, ts 9999) and (id 3, ts 20), the non-central creation
times read [20, 10] — not non-decreasing. -/
theorem c2_counterexample :
    ¬ ((Lane.start (some 1)).submitAll [ev10, ev9999, ev20]).nonCentralTimes.Pairwise
        (· ≤ ·) := by
  decide

/-- C2 (amended): in every run in which the designated central note is
never submitted, the non-central creation times are non-decreasing from
left to right after every submission. -/
theorem c2_ordering_when_central_absent (central : Option Nat) (events : List Event)
    (h : ∀ e ∈ events, central ≠ some e.id) :
    ((Lane.start central).submitAll events).nonCentralTimes.Pairwise (· ≤ ·) := by
  have hall := (submitAll_sorted
    (show (Lane.start central).central_note = central from rfl) h List.Pairwise.nil).1
  unfold Lane.nonCentralTimes
  rw [List.pairwise_map]
  exact hall.sublist (List.filter_sublist _)

/-- C2 witness: the amended theorem applied to the one-note run. -/
theorem c2_ordering_when_central_absent_witness :
    ((Lane.start none).submitAll [evP]).nonCentralTimes.Pairwise (· ≤ ·) :=
  c2_ordering_when_central_absent none [evP] (by decide)

/-! ### Claim C3 — idempotent ingestion of duplicates -/

/-- C3 counterexample: reply routing runs before the duplicate check, so
re-submitting the already-indexed reply `evR` sends its parent another
reply notification — a duplicate is not free of effects. -/
theorem c3_counterexample :
    (laneDup.text_note_received evR).2 ≠ [] := by
  decide

/-- C3 (amended): submitting an already-indexed event id leaves the
ordered note sequence and the reply index (the whole lane state)
unchanged — so submitting the same id twice yields the same sequence and
index as once — but reply routing still happens: a duplicate whose reply
target is indexed delivers another reply notification to that position. -/
theorem c3_duplicate_keeps_state (l : Lane) (e : Event)
    (h : (lookupIdx l.hash_index e.id).isSome = true) :
    (l.text_note_received e).1 = l
      ∧ ∀ tgt i, e.replies_to = some tgt → lookupIdx l.hash_index tgt = some i →
          (l.text_note_received e).2 = [⟨i, e⟩] := by
  refine ⟨text_note_received_indexed h, ?_⟩
  intro tgt i h1 h2
  simp [Lane.text_note_received, h, h1, h2]

/-- C3 witness: re-submitting `evR` to `laneDup` keeps the state. -/
theorem c3_duplicate_keeps_state_witness :
    (laneDup.text_note_received evR).1 = laneDup :=
  (c3_duplicate_keeps_state laneDup evR (by decide)).1

/-! ### Claim C5 — insertion position of a fresh non-central note -/

/-- C5: a fresh non-central note splits the sequence into the entries
scanned past (all with creation time at most the newcomer's) and the
rest, whose first entry — if any — is strictly later: the note is
inserted immediately before the first strictly-later entry, or appended.
Moreover the spec's scenario holds: submitting (id 1, ts 100),
(id 2, ts 50), (id 3, ts 75) yields the order [2, 3, 1], and re-submitting
the first note changes nothing. -/
theorem c5_insertion_rule (l : Lane) (e : Event)
    (hc : l.central_note ≠ some e.id)
    (hi : lookupIdx l.hash_index e.id = none) :
    (∃ pre post,
        l.text_notes = pre ++ post
          ∧ (l.text_note_received e).1.text_notes = pre ++ ⟨e, false⟩ :: post
          ∧ (∀ x ∈ pre, x.time ≤ e.created_at)
          ∧ ∀ h, post.head? = some h → e.created_at < h.time)
      ∧ (((Lane.start none).submitAll [evA, evB, evC]).text_notes.map fun n => n.event.id)
          = [2, 3, 1]
      ∧ (Lane.start none).submitAll [evA, evB, evC, evA]
          = (Lane.start none).submitAll [evA, evB, evC] := by
  refine ⟨?_, by rfl, by rfl⟩
  rw [text_note_received_insert hc hi]
  exact insRec_decomp e.created_at ⟨e, false⟩ l.text_notes

/-- C5 witness: the insertion rule applied to the empty lane and `evA`
(the scenario conjuncts are closed). -/
theorem c5_insertion_rule_witness :
    (((Lane.start none).submitAll [evA, evB, evC]).text_notes.map fun n => n.event.id)
      = [2, 3, 1] :=
  (c5_insertion_rule (Lane.start none) evA (by decide) (by decide)).2.1

/-! ### Claim C10 — equal timestamps and arrival order -/

/-- C10 counterexample: with central id 1 and the run (id 2, ts 10),
(id 1, ts 9999), (id 3, ts 20), (id 4, ts 10), the incoming note id 4
(ts 10) is inserted at position 0 — before the already-present note id 2
with the same timestamp 10, which sits at position 3: equal-timestamp
notes do not appear in arrival order once the central note is in play. -/
theorem c10_counterexample :
    ((((Lane.start (some 1)).submitAll [ev10, ev9999, ev20, ev10b]).text_notes.map
        fun n => (n.event.id, n.time)) = [(4, 10), (3, 20), (1, 9999), (2, 10)])
      ∧ lookupIdx ((Lane.start (some 1)).submitAll [ev10, ev9999, ev20, ev10b]).hash_index 4
          = some 0
      ∧ lookupIdx ((Lane.start (some 1)).submitAll [ev10, ev9999, ev20, ev10b]).hash_index 2
          = some 3 := by
  refine ⟨by rfl, by rfl, by rfl⟩

/-- C10 (amended): when the sequence is sorted by creation time — as it
is whenever the central note has never been submitted — a fresh
non-central note is inserted after every entry with a time at most equal
to its own (in particular after all entries with the same timestamp, so
equal-timestamp notes appear in arrival order) and before every entry
with a strictly later time. -/
theorem c10_equal_timestamps_after (l : Lane) (e : Event)
    (hs : l.text_notes.Pairwise fun a b => a.time ≤ b.time)
    (hc : l.central_note ≠ some e.id)
    (hi : lookupIdx l.hash_index e.id = none) :
    ∃ pre post,
      l.text_notes = pre ++ post
        ∧ (l.text_note_received e).1.text_notes = pre ++ ⟨e, false⟩ :: post
        ∧ (∀ x ∈ pre, x.time ≤ e.created_at)
        ∧ ∀ x ∈ post, e.created_at < x.time := by
  rw [text_note_received_insert hc hi]
  obtain ⟨pre, post, h1, h2, h3, h4⟩ := insRec_decomp e.created_at ⟨e, false⟩ l.text_notes
  refine ⟨pre, post, h1, h2, h3, ?_⟩
  rcases post with _ | ⟨hd, rest⟩
  · simp
  · have hhd : e.created_at < hd.time := h4 hd rfl
    have hpost : (hd :: rest).Pairwise fun a b : Note => a.time ≤ b.time :=
      ((List.pairwise_append.mp (h1 ▸ hs)).2).1
    intro x hx
    rcases List.mem_cons.mp hx with hx | hx
    · subst hx; exact hhd
    · have := (List.pairwise_cons.mp hpost).1 x hx
      omega

/-- C10 witness: the amended theorem applied to the empty lane and `evP`. -/
theorem c10_equal_timestamps_after_witness :
    ∃ pre post,
      (Lane.start none).text_notes = pre ++ post
        ∧ ((Lane.start none).text_note_received evP).1.text_notes
            = pre ++ ⟨evP, false⟩ :: post
        ∧ (∀ x ∈ pre, x.time ≤ evP.created_at)
        ∧ ∀ x ∈ post, evP.created_at < x.time :=
  c10_equal_timestamps_after (Lane.start none) evP (by decide) (by decide) (by decide)

/-! ### Claim C4 — reply-target resolution -/

/-- `List.findSome?` over a list that opens with elements mapped to
`none`, followed by a hit, returns that hit. -/
lemma findSome?_append_cons {α β : Type} (f : α → Option β) (b : β) :
    ∀ (pre : List α) (t : α) (post : List α), (∀ x ∈ pre, f x = none) → f t = some b →
      (pre ++ t :: post).findSome? f = some b
  | [], t, post, _, ht => by simp [List.findSome?_cons, ht]
  | a :: pre, t, post, hpre, ht => by
    have ha : f a = none := hpre a (List.mem_cons_self a pre)
    have ih := findSome?_append_cons f b pre t post
      (fun x hx => hpre x (List.mem_cons_of_mem a hx)) ht
    simp [List.findSome?_cons, ha, ih]

/-- A tag that is not an event reference carries no reply marker id. -/
lemma replyMark_none_of_not_event {t : Tag} (h : tagEventId t = none) :
    replyMarkId t = none := by
  cases t <;> simp_all [tagEventId, replyMarkId]

/-- A tag that is not an event reference is not a plain event tag. -/
lemma plain_false_of_not_event {t : Tag} (h : tagEventId t = none) :
    isPlainEventTag t = false := by
  cases t <;> simp_all [tagEventId, isPlainEventTag]

/-- The positional branch picks the last of two or more plain event tags. -/
lemma positionalRepliesTo_concat {tags pre : List Tag} {i : Nat} {r : Option String}
    (hpre : pre ≠ [])
    (hfilter : tags.filter isPlainEventTag = pre ++ [Tag.event i r none]) :
    positionalRepliesTo tags = some i := by
  unfold positionalRepliesTo
  rw [hfilter]
  rcases pre with _ | ⟨a, pre'⟩
  · exact absurd rfl hpre
  · rcases pre' with _ | ⟨b, pre''⟩
    · simp [tagEventId]
    · rw [List.cons_append, List.cons_append]
      have hlast : (a :: b :: (pre'' ++ [Tag.event i r none])).getLast?
          = some (Tag.event i r none) := by
        rw [show a :: b :: (pre'' ++ [Tag.event i r none])
            = (a :: b :: pre'') ++ [Tag.event i r none] by simp, List.getLast?_concat]
      show ((a :: b :: (pre'' ++ [Tag.event i r none])).getLast?).bind tagEventId = some i
      rw [hlast]
      rfl

/-- C4: reply-target resolution follows NIP-10 as the claim states it: a
reply-marked event tag (the first such) gives the target; otherwise a
single plain event tag gives the target; otherwise the last of two or
more plain event tags gives the target; an event with no event-reference
tags at all declares no reply target. -/
theorem c4_reply_target_resolution (e : Event) :
    (∀ pre i r post, e.tags = pre ++ Tag.event i r (some Marker.reply) :: post →
        (∀ t ∈ pre, replyMarkId t = none) → e.replies_to = some i)
  ∧ (∀ i r, (∀ t ∈ e.tags, replyMarkId t = none) →
        e.tags.filter isPlainEventTag = [Tag.event i r none] → e.replies_to = some i)
  ∧ (∀ pre i r, (∀ t ∈ e.tags, replyMarkId t = none) → pre ≠ [] →
        e.tags.filter isPlainEventTag = pre ++ [Tag.event i r none] → e.replies_to = some i)
  ∧ ((∀ t ∈ e.tags, tagEventId t = none) → e.replies_to = none) := by
  refine ⟨?_, ?_, ?_, ?_⟩
  · intro pre i r post htags hpre
    unfold Event.replies_to
    rw [htags, findSome?_append_cons replyMarkId i pre (Tag.event i r (some Marker.reply))
      post hpre rfl]
    rfl
  · intro i r hnone hfilter
    unfold Event.replies_to
    rw [List.findSome?_eq_none_iff.mpr hnone]
    show positionalRepliesTo e.tags = some i
    unfold positionalRepliesTo
    rw [hfilter]
    rfl
  · intro pre i r hnone hpre hfilter
    unfold Event.replies_to
    rw [List.findSome?_eq_none_iff.mpr hnone]
    show positionalRepliesTo e.tags = some i
    exact positionalRepliesTo_concat hpre hfilter
  · intro hnone
    unfold Event.replies_to
    rw [List.findSome?_eq_none_iff.mpr fun t ht => replyMark_none_of_not_event (hnone t ht)]
    show positionalRepliesTo e.tags = none
    unfold positionalRepliesTo
    rw [List.filter_eq_nil_iff.mpr fun t ht => by
      simp [plain_false_of_not_event (hnone t ht)]]

/-- C4 witness: resolving `evReply`, whose only tag is reply-marked. -/
theorem c4_reply_target_resolution_witness : evReply.replies_to = some 7 :=
  (c4_reply_target_resolution evReply).1 [] 7 none [] rfl (by simp)

/-! ### Claim C6 — NIP-05 verification with the 12-hour cache -/

/-- C6: a stored verification age under 12 hours confirms with no network
check and no write; with no young-enough stored age, a successful live
check writes a fresh timestamp and returns true, a failed live check
writes nothing and returns false; a failed gateway lookup returns false
without raising an error (the function is total) and without any check
or write. -/
theorem c6_nip05_verification (dbHours : Except Unit (Option (Option Nat))) (live : Bool) :
    (∀ res hours, dbHours = .ok res → (res.bind fun r => r) = some hours → hours < 12 →
        verify_nip05 dbHours live = ⟨true, false, false⟩)
  ∧ (∀ res, dbHours = .ok res → (∀ hours, (res.bind fun r => r) = some hours → 12 ≤ hours) →
        live = true → verify_nip05 dbHours live = ⟨true, true, true⟩)
  ∧ (∀ res, dbHours = .ok res → (∀ hours, (res.bind fun r => r) = some hours → 12 ≤ hours) →
        live = false → verify_nip05 dbHours live = ⟨false, true, false⟩)
  ∧ ∀ u, dbHours = .error u → verify_nip05 dbHours live = ⟨false, false, false⟩ := by
  refine ⟨?_, ?_, ?_, ?_⟩
  · intro res hours hok hjoin hlt
    subst hok
    simp [verify_nip05, hjoin, hlt]
  · intro res hok hold hlive
    subst hok; subst hlive
    cases hjoin : res.bind fun r => r with
    | none => simp [verify_nip05, hjoin]
    | some hours =>
      have := hold hours hjoin
      simp [verify_nip05, hjoin, Nat.not_lt.mpr this]
  · intro res hok hold hlive
    subst hok; subst hlive
    cases hjoin : res.bind fun r => r with
    | none => simp [verify_nip05, hjoin]
    | some hours =>
      have := hold hours hjoin
      simp [verify_nip05, hjoin, Nat.not_lt.mpr this]
  · intro u hok
    subst hok
    simp [verify_nip05]

/-- C6 witness: a verification three hours old confirms immediately. -/
theorem c6_nip05_verification_witness :
    verify_nip05 (.ok (some (some 3))) false = ⟨true, false, false⟩ :=
  (c6_nip05_verification (.ok (some (some 3))) false).1 (some (some 3)) 3 rfl rfl
    (by decide)

/-! ### Claim C7 — malformed metadata content -/

/-- C7: the code does not drop a metadata event whose content fails to
parse as profile metadata: `event.as_metadata().unwrap()` panics (modelled
as `Except.error`), and the panic propagates through `received_event`
instead of yielding "no record, no error". Evaluated at `evBadMeta`,
whose content the parser rejects. -/
theorem c7_metadata_parse_panics :
    received_metadata extTest evBadMeta = .error ()
      ∧ extTest.parseMetadata evBadMeta.content = none
      ∧ received_event extTest (fun _ => none) chEmpty "wss:r" evBadMeta
          = (.error (), chEmpty) := by
  refine ⟨rfl, rfl, rfl⟩

/-! ### Claim C8 — best-effort feedback sends -/

/-- C8 counterexample: on a full (but open) feedback channel, the
producer's `send(...).await` does not discard the request without
blocking: the model of the tokio bounded send records that the producer
waited, and the request ends up appended to the queue. -/
theorem c8_counterexample :
    (received_text_note extTest chFull "wss:r" evT).1.sendOutcome = some SendOutcome.waited
      ∧ (received_text_note extTest chFull "wss:r" evT).2.queue
          = chFull.queue ++ [Feedback.needMetadata "wss:r" 7] := by
  refine ⟨by decide, by decide⟩

/-- C8 (amended): the feedback channel has capacity 10; a producer with
an unknown author whose send fails because the channel is closed swallows
the error (`unwrap_or_default`) and still emits a `TextNote` record with
no author and no avatar, leaving the channel as it was; when the channel
is full but open, the producer waits for capacity — the request is
enqueued, not discarded — and then emits the same authorless record. -/
theorem c8_feedback_best_effort (ext : Ext) (ch : Channel) (relay : String) (e : Event)
    (h : ext.getPersona e.pubkey = none) :
    feedbackChannelCapacity = 10
  ∧ (ch.closed = true →
      received_text_note ext ch relay e
        = (⟨X.textNote e (ext.textnoteRelays e.id) none none, some .closedErr⟩, ch))
  ∧ (ch.closed = false → ch.capacity ≤ ch.queue.length →
      received_text_note ext ch relay e
        = (⟨X.textNote e (ext.textnoteRelays e.id) none none, some .waited⟩,
            { ch with queue := ch.queue ++ [.needMetadata relay e.pubkey] })) := by
  refine ⟨rfl, ?_, ?_⟩
  · intro hclosed
    simp [received_text_note, h, mpsc_send, hclosed]
  · intro hopen hfull
    simp [received_text_note, h, mpsc_send, hopen, Nat.not_lt.mpr hfull]

/-- C8 witness: the closed-channel case at concrete inputs. -/
theorem c8_feedback_best_effort_witness :
    received_text_note extTest chClosed "wss:r" evT
      = (⟨X.textNote evT [] none none, some .closedErr⟩, chClosed) :=
  (c8_feedback_best_effort extTest chClosed "wss:r" evT rfl).2.1 rfl

/-! ### Claim C9 — classification filter -/

/-- C9: classification emits a record only for text-note, metadata and
reaction kinds: any other kind yields no record and no error, and a
reaction whose target does not resolve yields no record and no error,
whatever the (spec-modelled) target resolver is. -/
theorem c9_classification (ext : Ext) (reactsTo : ReactsTo) (ch : Channel)
    (relay : String) (e : Event) :
    (∀ k, e.kind = Kind.other k →
        received_event ext reactsTo ch relay e = (.ok none, ch))
  ∧ (e.kind = Kind.reaction → reactsTo e = none →
        received_event ext reactsTo ch relay e = (.ok none, ch))
  ∧ ∀ x ch', received_event ext reactsTo ch relay e = (.ok (some x), ch') →
        e.kind = Kind.textNote ∨ e.kind = Kind.metadata ∨ e.kind = Kind.reaction := by
  refine ⟨?_, ?_, ?_⟩
  · intro k hk
    simp [received_event, hk]
  · intro hk hr
    simp [received_event, hk, hr]
  · intro x ch' hx
    cases hk : e.kind with
    | textNote => exact .inl rfl
    | metadata => exact .inr (.inl rfl)
    | reaction => exact .inr (.inr rfl)
    | other k => simp [received_event, hk] at hx

/-- C9 witness: an event of another kind is dropped without error. -/
theorem c9_classification_witness :
    received_event extTest (fun _ => none) chEmpty "wss:r" evOther = (.ok none, chEmpty) :=
  (c9_classification extTest (fun _ => none) chEmpty "wss:r" evOther).1 5 rfl

end Gnostique
